import Mathlib

/-!
Verification of the ngmixer observation-assembly pipeline.

This file gives a shallow embedding of the core routines of the
repository (src/ngmixer/imageio/medsio.py, src/ngmixer/imageio/desmedsio.py,
src/ngmixer/util.py, src/ngmixer/defaults.py) and proves properties of the
embedded definitions.  Images, weight maps and segmentation maps are modelled
as total functions from pixel coordinates, together with explicit shape data;
floating point arithmetic is modelled by exact rationals (reals for the
spherical trigonometry of the off-chip projection); external collaborators
(the MEDS cutout source, the statistical outlier rejection routine of the
meds package, the PSF provider, the WCS) are abstracted as parameters.
-/

namespace Ngmixer

/-- Grid of rational values (weight maps, images), indexed row, col. -/
abbrev Grid := Nat → Nat → Rat

/-- Grid of integer values (segmentation maps). -/
abbrev IGrid := Nat → Nat → Int

/-- Grid of natural values (bit masks). -/
abbrev NGrid := Nat → Nat → Nat

/-- Flag bit IMAGE_FLAGS from defaults.py (USE_OLD_FLAGS is False). -/
def IMAGE_FLAGS : Nat := 2 ^ 26

/-- Flag bit IMAGE_FLAGS_SET from desmedsio.py. -/
def IMAGE_FLAGS_SET : Nat := 2 ^ 0

/-- Model of one epoch Observation as assembled by MEDSImageIO.
The pixel content is a function together with a shape; `flags` is the
per-observation status flag stored in the meta data, `file_id`, `oid` and
`icut` are the meta data fields filled by `_fill_obs_meta_data`, and `psf`
is an abstract handle for the attached PSF stamp. -/
structure Obs where
  nrows : Nat
  ncols : Nat
  image : Grid
  weight : Grid
  weight_raw : Grid
  weight_us : Option Grid
  weight_orig : Option Grid
  seg : IGrid
  flags : Nat
  file_id : Int
  oid : Int
  icut : Nat
  psf : Nat

/-! ## Mask dilation: Y1DESMEDSImageIO._expand_mask (desmedsio.py 515-537) -/

/-- Set one pixel of a mask to the value `v`. -/
def setPix (g : NGrid) (p : Nat × Nat) (v : Nat) : NGrid :=
  fun i j => if i = p.1 ∧ j = p.2 then v else g i j

/-- Row-major list of the coordinates of the nonzero pixels of a mask,
as returned by numpy.where(cbmask != 0). -/
def nonzeroIndices (nrows ncols : Nat) (g : NGrid) : List (Nat × Nat) :=
  (List.range nrows).flatMap (fun i =>
    (List.range ncols).filterMap (fun j =>
      if g i j ≠ 0 then some (i, j) else none))

/-- The in-bounds 8-connectivity neighborhood (including the pixel itself)
of pixel `p`, in the dx-outer, dy-inner order of the source loops. -/
def neighborsOf (nrows ncols : Nat) (p : Nat × Nat) : List (Nat × Nat) :=
  ([-1, 0, 1] : List Int).flatMap (fun dx =>
    let iix : Int := (p.1 : Int) + dx
    if 0 ≤ iix ∧ iix < (nrows : Int) then
      ([-1, 0, 1] : List Int).filterMap (fun dy =>
        let iiy : Int := (p.2 : Int) + dy
        if 0 ≤ iiy ∧ iiy < (ncols : Int) then some (iix.toNat, iiy.toNat)
        else none)
    else [])

/-- One round of the dilation loop: every in-bounds neighbor of a frontier
pixel is set to 1 and collected as the next frontier. -/
def expandRound (nrows ncols : Nat) (st : NGrid × List (Nat × Nat)) :
    NGrid × List (Nat × Nat) :=
  let newfront := st.2.flatMap (neighborsOf nrows ncols)
  (newfront.foldl (fun g p => setPix g p 1) st.1, newfront)

/-- State (mask, frontier) after `rounds` rounds of `_expand_mask`. -/
def expandState (nrows ncols : Nat) (bmask : NGrid) (rounds : Nat) :
    NGrid × List (Nat × Nat) :=
  (expandRound nrows ncols)^[rounds] (bmask, nonzeroIndices nrows ncols bmask)

/-- Y1DESMEDSImageIO._expand_mask: dilate `bmask` by `rounds` rounds of
8-connectivity expansion. -/
def expand_mask (nrows ncols : Nat) (bmask : NGrid) (rounds : Nat) : NGrid :=
  (expandState nrows ncols bmask rounds).1

/-! ## Nearest-pixel mask resampling: interpolate_image (util.py 44-94) -/

/-- A 2x2 matrix of rationals, the jacobian matrix handed to
interpolate_image (meds.get_jacobian_matrix). -/
structure Mat2 where
  a : Rat
  b : Rat
  c : Rat
  d : Rat
deriving DecidableEq

/-- Determinant of a 2x2 matrix. -/
def Mat2.det (m : Mat2) : Rat := m.a * m.d - m.b * m.c

/-- Matrix inverse (numpy .getI()); junk when the determinant is zero. -/
def Mat2.getI (m : Mat2) : Mat2 :=
  ⟨m.d / m.det, -m.b / m.det, -m.c / m.det, m.a / m.det⟩

/-- numpy rounding of an exact value: round half to even. -/
def npround (q : Rat) : Int :=
  if q - ⌊q⌋ = 1 / 2 then (if Even ⌊q⌋ then ⌊q⌋ else ⌊q⌋ + 1) else round q

/-- util.interpolate_image: fill each pixel (r, c) of the target frame with
the source pixel found by mapping (r, c) through the target jacobian to the
tangent plane and back through the inverse of the source jacobian, rounded
to the nearest integer pixel; out-of-bounds pixels keep the value 0 of
numpy.zeros_like.  Both frames share the shape `nrows` x `ncols`. -/
def interpolate_image (rowcen1 colcen1 : Rat) (jacob1 : Mat2) (im1 : IGrid)
    (nrows ncols : Nat) (rowcen2 colcen2 : Rat) (jacob2 : Mat2) : IGrid :=
  fun r c =>
    let jinv1 := jacob1.getI
    let u := ((r : Rat) - rowcen2) * jacob2.a + ((c : Rat) - colcen2) * jacob2.b
    let v := ((r : Rat) - rowcen2) * jacob2.c + ((c : Rat) - colcen2) * jacob2.d
    let row1 := npround (rowcen1 + u * jinv1.a + v * jinv1.b)
    let col1 := npround (colcen1 + u * jinv1.c + v * jinv1.d)
    if 0 ≤ row1 ∧ row1 < (nrows : Int) ∧ 0 ≤ col1 ∧ col1 < (ncols : Int) then
      im1 row1.toNat col1.toNat
    else 0

/-! ## Off-chip neighbor projection
(util.py 24-41 and Y1DESMEDSImageIO._get_offchip_nbr_psf_obs_and_jac,
desmedsio.py 381-459).  The sky positions are obtained from the coadd WCS
in the source; the embedding takes the (ra, dec) pairs as inputs. -/

/-- A 3-vector of reals. -/
structure V3 where
  x : ℝ
  y : ℝ
  z : ℝ

/-- Dot product of 3-vectors. -/
def dot3 (p q : V3) : ℝ := p.x * q.x + p.y * q.y + p.z * q.z

/-- util.radec_to_thetaphi. -/
noncomputable def radec_to_thetaphi (ra dec : ℝ) : ℝ × ℝ :=
  ((90.0 - dec) / 180.0 * Real.pi, -1.0 * ra / 180.0 * Real.pi)

/-- util.thetaphi_to_unitvecs_ruv: returns (rhat, phat, -that). -/
noncomputable def thetaphi_to_unitvecs_ruv (theta phi : ℝ) : V3 × V3 × V3 :=
  let sint := Real.sin theta
  let cost := Real.cos theta
  let sinp := Real.sin phi
  let cosp := Real.cos phi
  let rhat : V3 := ⟨sint * cosp, sint * sinp, cost⟩
  let that : V3 := ⟨cost * cosp, cost * sinp, -1.0 * sint⟩
  let phat : V3 := ⟨-1.0 * sinp, cosp, 0.0⟩
  (rhat, phat, ⟨-1.0 * that.x, -1.0 * that.y, -1.0 * that.z⟩)

/-- util.radec_to_unitvecs_ruv. -/
noncomputable def radec_to_unitvecs_ruv (ra dec : ℝ) : V3 × V3 × V3 :=
  let tp := radec_to_thetaphi ra dec
  thetaphi_to_unitvecs_ruv tp.1 tp.2

/-- The ngmix Jacobian of an observation: a center and a 2x2 linear part,
over the reals for use with the spherical projection. -/
structure JacobianR where
  row0 : ℝ
  col0 : ℝ
  dudrow : ℝ
  dudcol : ℝ
  dvdrow : ℝ
  dvdcol : ℝ

/-- Step 1c of _get_offchip_nbr_psf_obs_and_jac: tangent-plane offset
(u, v) of the neighbor relative to the central object, in arcsec. -/
noncomputable def offchipUV (ra_cen dec_cen ra_nbr dec_nbr : ℝ) : ℝ × ℝ :=
  let ruv_cen := radec_to_unitvecs_ruv ra_cen dec_cen
  let ruv_nbr := radec_to_unitvecs_ruv ra_nbr dec_nbr
  let rhat_cen := ruv_cen.1
  let uhat_cen := ruv_cen.2.1
  let vhat_cen := ruv_cen.2.2
  let rhat_nbr := ruv_nbr.1
  let cosang := dot3 rhat_cen rhat_nbr
  let u_nbr := dot3 rhat_nbr uhat_cen / cosang / Real.pi * 180.0 * 60.0 * 60.0
  let v_nbr := dot3 rhat_nbr vhat_cen / cosang / Real.pi * 180.0 * 60.0 * 60.0
  (u_nbr, v_nbr)

/-- Step 2 and 2a of _get_offchip_nbr_psf_obs_and_jac: convert the (u, v)
offset to a pixel position through the inverse of the central jacobian
linear part, and re-center a copy of the central jacobian there. -/
noncomputable def offchipNbrJac (ra_cen dec_cen ra_nbr dec_nbr : ℝ)
    (J : JacobianR) : JacobianR :=
  let uv := offchipUV ra_cen dec_cen ra_nbr dec_nbr
  let det := J.dudrow * J.dvdcol - J.dudcol * J.dvdrow
  let ia := J.dvdcol / det
  let ib := -J.dudcol / det
  let ic := -J.dvdrow / det
  let id' := J.dudrow / det
  let row_nbr := ia * uv.1 + ib * uv.2 + J.row0
  let col_nbr := ic * uv.1 + id' * uv.2 + J.col0
  { J with row0 := row_nbr, col0 := col_nbr }

/-! ## Image-quality flag reduction
(util.py CombinedImageFlags 298-340 and
SVDESMEDSImageIO._get_replacement_flags / _load_meds_files,
desmedsio.py 225-283).  The replacement table is a finite map from a
derived key to a flag; the key derivation from the image file name
(CombinedImageFlags.get_key) is abstracted as a function parameter. -/

/-- CombinedImageFlags.get_flags: look the derived key of `image_name` up
in the json data; absent keys give `default` (python dict .get). -/
def getFlagsCombined (data : List (String × Nat)) (getKey : String → String)
    (image_name : String) (default : Nat) : Nat :=
  match data.lookup (getKey image_name) with
  | some f => f
  | none => default

/-- CombinedImageFlags.get_flags_multi. -/
def getFlagsMulti (data : List (String × Nat)) (getKey : String → String)
    (image_names : List String) (default : Nat) : List Nat :=
  image_names.map (fun nm => getFlagsCombined data getKey nm default)

/-- SVDESMEDSImageIO._get_replacement_flags: the default flag handed to the
table lookup is the configured image_flags2check bitmask itself. -/
def getReplacementFlags (chk : Nat) (data : List (String × Nat))
    (getKey : String → String) (filenames : List String) : List Nat :=
  getFlagsMulti data getKey filenames chk

/-- Binary reduction of one cutout flag, as in
SVDESMEDSImageIO._load_meds_files: IMAGE_FLAGS_SET when a checked bit is
set, 0 otherwise. -/
def reduceFlag (chk : Nat) (f : Nat) : Nat :=
  if f &&& chk ≠ 0 then IMAGE_FLAGS_SET else 0

/-- The per-band image flag array built by
SVDESMEDSImageIO._load_meds_files for one band: entry 0 (the coadd image)
is untouched; entries 1.. are first optionally overridden from the
replacement table (when a table is configured and the array has more than
one entry) and then reduced to 0 or IMAGE_FLAGS_SET. -/
def loadBandImageFlags (chk : Nat) (useRepl : Bool)
    (replData : List (String × Nat)) (getKey : String → String)
    (imagePaths : List String) (rawFlags : List Nat) : List Nat :=
  let image_flags :=
    if useRepl ∧ rawFlags.length > 1 then
      rawFlags.take 1 ++
        getReplacementFlags chk replData getKey (imagePaths.drop 1)
    else rawFlags
  image_flags.take 1 ++ (image_flags.drop 1).map (reduceFlag chk)

/-! ## Index and group manager: MEDSImageIO._set_and_check_index_lookups
(medsio.py 144-209).  The per-band catalogs are modelled by their `number`
columns; the optional FoF table by a list of (fofid, number) rows. -/

/-- The rows ((i, i + 1, ...) zipped with a column) built by the
no-FoF-file fallback: the fofid column is numpy.arange, the number column
the first band catalog numbers. -/
def arangeZip (i : Nat) : List Int → List (Int × Int)
  | [] => []
  | n :: rest => ((i : Int), n) :: arangeZip (i + 1) rest

/-- The fof_data rows: the supplied table when there is one, otherwise one
singleton row (fofid = row index, number = catalog number) per object of
the first band. -/
def buildFofData (fofTable : Option (List (Int × Int)))
    (numbers0 : List Int) : List (Int × Int) :=
  match fofTable with
  | some t => t
  | none => arangeZip 0 numbers0

/-- Sorted list of the distinct values of a column (numpy.unique followed
by numpy.sort). -/
def npUniqueSorted (l : List Int) : List Int :=
  (l.insertionSort (· ≤ ·)).dedup

/-- Row indices whose fofid column matches `fofid`
(numpy.where(fof_data.fofid == fofid)). -/
def fofMembers (fof_data : List (Int × Int)) (fofid : Int) : List Nat :=
  (List.range fof_data.length).filter
    (fun i => (fof_data.getD i (0, 0)).1 == fofid)

/-- The loop building the fofid2mindex hash in the read_fofs branch of
_set_and_check_index_lookups, with its two asserts: a zero length FoF and
group numbers disagreeing with the first band catalog are fatal. -/
def buildFofTable (fof_data : List (Int × Int)) (numbers0 : List Int) :
    List Int → Except String (List (Int × List Nat))
  | [] => pure []
  | fofid :: rest => do
    let q := fofMembers fof_data fofid
    if q.length = 0 then
      throw "Found zero length FoF"
    else if ¬ (q.map (fun i => (fof_data.getD i (0, 0)).2) =
          q.map (fun i => numbers0.getD i 0)) then
      throw "FoF numbers do not match MEDS numbers"
    else do
      let tl ← buildFofTable fof_data numbers0 rest
      pure ((fofid, q) :: tl)

/-- MEDSImageIO._set_and_check_index_lookups.  Returns the sorted distinct
fofids together with the fofid-to-member-indices table, or an error when
one of the asserts fires: a band number column differing from the fof
number column, an empty FoF group, or group members whose numbers disagree
with the first band.  When no FoF table is supplied the member table is
the list of singletons [fofid]. -/
def setAndCheckIndexLookups (bandsNumbers : List (List Int))
    (fofTable : Option (List (Int × Int))) :
    Except String (List Int × List (Int × List Nat)) := do
  let numbers0 := bandsNumbers.headD []
  let fof_data := buildFofData fofTable numbers0
  if ¬ (∀ nums ∈ bandsNumbers, nums = fof_data.map Prod.snd) then
    throw "FoF number is not the same as MEDS number"
  else
    let fofids := npUniqueSorted (fof_data.map Prod.fst)
    match fofTable with
    | some _ => do
      let table ← buildFofTable fof_data numbers0 fofids
      pure (fofids, table)
    | none =>
      pure (fofids, fofids.map (fun fofid => (fofid, [fofid.toNat])))

/-- The flag value that the (optionally overridden) raw flag of single
epoch image k (0-offset among the entries 1.. of the array) carries into
the binary reduction of _load_meds_files. -/
def overriddenRawFlag (chk : Nat) (useRepl : Bool)
    (replData : List (String × Nat)) (getKey : String → String)
    (imagePaths : List String) (rawFlags : List Nat) (k : Nat) : Nat :=
  if useRepl ∧ rawFlags.length > 1 then
    getFlagsCombined replData getKey ((imagePaths.drop 1).getD k "") chk
  else (rawFlags.drop 1).getD k 0

/-! ## Bitmask propagation: Y1DESMEDSImageIO._prop_extra_bitmasks
(desmedsio.py 539-592).  For one observation: given the dilated resampled
mask `bmaski`, the pixel list q = where(bmaski != 0 and seg == 0) is
computed and every weight grid carried by the observation is zeroed at q.
The python hasattr guards on weight_us / weight_orig are modelled by the
Option fields of `Obs`. -/

/-- Row-major list of the pixels where the dilated mask is set and the
segmentation map is background (numpy.where((bmaski != 0) & (seg == 0))). -/
def maskIndices (nrows ncols : Nat) (bmaski : NGrid) (seg : IGrid) :
    List (Nat × Nat) :=
  (List.range nrows).flatMap (fun i =>
    (List.range ncols).filterMap (fun j =>
      if bmaski i j ≠ 0 ∧ seg i j = 0 then some (i, j) else none))

/-- Zero a weight grid at every pixel of the list q (w[q] = 0.0). -/
def zeroAtIndices (w : Grid) (q : List (Nat × Nat)) : Grid :=
  q.foldl (fun w' p => fun i j => if i = p.1 ∧ j = p.2 then 0 else w' i j) w

/-- The body of the _prop_extra_bitmasks loop for one unflagged
observation, given the already dilated resampled mask `bmaski`. -/
def propExtraBitmasksObs (bmaski : NGrid) (o : Obs) : Obs :=
  let q := maskIndices o.nrows o.ncols bmaski o.seg
  if q.length > 0 then
    { o with
      weight_raw := zeroAtIndices o.weight_raw q
      weight_us := o.weight_us.map (fun w => zeroAtIndices w q)
      weight := zeroAtIndices o.weight q
      weight_orig := o.weight_orig.map (fun w => zeroAtIndices w q) }
  else o

/-! ## Observation builder: MEDSImageIO._get_band_observations and
MEDSImageIO._reject_outliers (medsio.py 458-527).  The cutout fetch
(_get_band_observation) and the statistical outlier rejection routine
(meds.reject_outliers, an external package) are abstracted as
parameters. -/

/-- The observation built for slot `icut` of one band: when the reduced
image flag of the slot is nonzero, a zero-size observation with status
flag IMAGE_FLAGS; otherwise the fetched observation with status flag 0.
In both cases _fill_obs_meta_data stores the meta data (file_id, id,
icut) of the slot. -/
def buildSlot (imageFlags : List Nat) (fetch : Nat → Obs)
    (medsFileIdAt : Nat → Int) (objId : Int) (icut : Nat) : Obs :=
  let o :=
    if imageFlags.getD icut 0 ≠ 0 then
      { nrows := 0, ncols := 0, image := fun _ _ => 0, weight := fun _ _ => 0
        weight_raw := fun _ _ => 0, weight_us := none, weight_orig := none
        seg := fun _ _ => 0, flags := 0, file_id := 0, oid := 0, icut := 0
        psf := 0 }
    else fetch icut
  { o with
    file_id := medsFileIdAt icut, oid := objId, icut := icut
    flags := if imageFlags.getD icut 0 ≠ 0 then IMAGE_FLAGS else 0 }

/-- List of the images of the status-flag-0 observations, as collected by
the imlist loop of _reject_outliers. -/
def goodImages (obs_list : List Obs) : List Grid :=
  (obs_list.filter (fun o => o.flags == 0)).map (fun o => o.image)

/-- List of the weights of the status-flag-0 observations, as collected by
the wtlist loop of _reject_outliers. -/
def goodWeights (obs_list : List Obs) : List Grid :=
  (obs_list.filter (fun o => o.flags == 0)).map (fun o => o.weight)

/-- Write the weight maps modified in place by meds.reject_outliers back
onto the status-flag-0 observations, positionally. -/
def assignWeightsBack : List Obs → List Grid → List Obs
  | [], _ => []
  | o :: rest, wts =>
    if o.flags == 0 then
      { o with weight := wts.headD o.weight } :: assignWeightsBack rest wts.tail
    else
      o :: assignWeightsBack rest wts

/-- MEDSImageIO._reject_outliers: run the external rejection routine `rj`
on the images and weights of the status-flag-0 observations; their weight
maps are modified in place. -/
def rejectOutliers (rj : List Grid → List Grid → List Grid)
    (obs_list : List Obs) : List Obs :=
  assignWeightsBack obs_list (rj (goodImages obs_list) (goodWeights obs_list))

/-- The guard of medsio.py line 524: the outlier rejection pass is entered
when the configuration enables it and the single-epoch list is nonempty. -/
def outlierPassRun (conf_reject : Bool) (obs_list : List Obs) : Bool :=
  conf_reject && obs_list.length > 0

/-- MEDSImageIO._get_band_observations: build one observation per cutout
slot (slot 0 goes to the coadd list, the rest to the single-epoch list),
then run the outlier rejection pass under its guard. -/
def getBandObservations (conf_reject : Bool) (imageFlags : List Nat)
    (fetch : Nat → Obs) (medsFileIdAt : Nat → Int) (objId : Int)
    (rj : List Grid → List Grid → List Grid) : List Obs × List Obs :=
  let slots := (List.range imageFlags.length).map
    (buildSlot imageFlags fetch medsFileIdAt objId)
  let coadd_obs_list := slots.take 1
  let obs_list := slots.drop 1
  (coadd_obs_list,
   if outlierPassRun conf_reject obs_list then rejectOutliers rj obs_list
   else obs_list)

/-! ## Neighbor geometry:
MEDSImageIO._add_nbrs_psfs_and_jacs and _get_nbr_psf_obs_and_jac
(medsio.py 265-326).  The jacobian built from the meds arrays for the
reused epoch and the off-chip fallback are abstracted as parameters. -/

/-- The selection loop of _get_nbr_psf_obs_and_jac: the last observation
of the neighbor's band list whose leading meta file_id equals the central
file_id and whose meta id equals the neighbor id. -/
def selectNbrObs (cenFileId nbrId : Int) (obsList : List Obs) : Option Obs :=
  obsList.foldl
    (fun acc o =>
      if o.file_id = cenFileId ∧ o.oid = nbrId then some o else acc)
    none

/-- MEDSImageIO._get_nbr_psf_obs_and_jac.  When an on-chip observation of
the neighbor is selected, the asserts of the source demand a status flag
of 0 and a consistent meds file_id before its PSF and the jacobian built
from the meds arrays at its cutout index are reused (assertion failures
are the error outcomes); otherwise the off-chip fallback result is
returned. -/
def getNbrPsfObsAndJac (cenFileId nbrId : Int) (obsList : List Obs)
    (medsFileIdAt : Nat → Int) (medsJacAt : Nat → JacobianR)
    (offchipResult : Option (Nat × JacobianR)) :
    Except String (Option (Nat × JacobianR)) :=
  match selectNbrObs cenFileId nbrId obsList with
  | some nbr_obs =>
    if nbr_obs.flags ≠ 0 then
      throw "assert nbr_obs flags failed"
    else if medsFileIdAt nbr_obs.icut ≠ cenFileId then
      throw "assert meds file_id failed"
    else
      pure (some (nbr_obs.psf, medsJacAt nbr_obs.icut))
  | none => pure offchipResult

/-- The per-observation loop body of MEDSImageIO._add_nbrs_psfs_and_jacs:
for each neighbor index, in order, append the (psf, jacobian) pair
produced by the geometry engine and a per-neighbor flag, 1 when the psf or
the jacobian is missing or the neighbor's aggregate object flag is
nonzero, 0 otherwise. -/
def addNbrsPsfsAndJacs (nbrs_inds : List Nat)
    (getPair : Nat → Option Nat × Option JacobianR)
    (objFlags : Nat → Nat) :
    List (Option Nat) × List Nat × List (Option JacobianR) :=
  nbrs_inds.foldl
    (fun acc ind =>
      let pr := getPair ind
      (acc.1 ++ [pr.1],
       acc.2.1 ++
        [if pr.1.isNone ∨ pr.2.isNone ∨ objFlags ind ≠ 0 then 1 else 0],
       acc.2.2 ++ [pr.2]))
    ([], [], [])

/-- A concrete zero-size observation carrying the IMAGE_FLAGS status flag,
of the shape synthesized for an unusable epoch slot. -/
def flaggedSampleObs : Obs :=
  { nrows := 0, ncols := 0, image := fun _ _ => 0, weight := fun _ _ => 0
    weight_raw := fun _ _ => 0, weight_us := none, weight_orig := none
    seg := fun _ _ => 0, flags := IMAGE_FLAGS, file_id := 3, oid := 7
    icut := 1, psf := 0 }

/-- A concrete unflagged 2x2 sample observation. -/
def goodSampleObs : Obs :=
  { nrows := 2, ncols := 2, image := fun _ _ => 5, weight := fun _ _ => 1
    weight_raw := fun _ _ => 1, weight_us := some (fun _ _ => 1)
    weight_orig := some (fun _ _ => 1)
    seg := fun i j => if i = 0 ∧ j = 0 then 7 else 0, flags := 0
    file_id := 3, oid := 7, icut := 1, psf := 4 }

/-! # Theorems -/

/-- Folding pixel writes of the value 1 over a list never clears a pixel. -/
theorem foldl_setPix_ne_zero (l : List (Nat × Nat)) (g : NGrid) (i j : Nat)
    (h : g i j ≠ 0) : (l.foldl (fun g' p => setPix g' p 1) g) i j ≠ 0 := by
  induction l generalizing g with
  | nil => simpa using h
  | cons p t ih =>
    simp only [List.foldl_cons]
    apply ih
    unfold setPix
    by_cases hp : i = p.1 ∧ j = p.2
    · simp [hp]
    · simpa [hp] using h

/-- Folding pixel writes of the value 1 either writes 1 or leaves the
pixel at its previous value. -/
theorem foldl_setPix_eval (l : List (Nat × Nat)) (g : NGrid) (i j : Nat) :
    (l.foldl (fun g' p => setPix g' p 1) g) i j = 1 ∨
      (l.foldl (fun g' p => setPix g' p 1) g) i j = g i j := by
  induction l generalizing g with
  | nil => simp
  | cons p t ih =>
    simp only [List.foldl_cons]
    rcases ih (setPix g p 1) with h | h
    · exact Or.inl h
    · rw [h]
      unfold setPix
      by_cases hp : i = p.1 ∧ j = p.2
      · simp [hp]
      · simp [hp]

/-- C8: for every binary mask and every number of rounds r, the set of
nonzero pixels of the 8-connectivity dilation _expand_mask after r + 1
rounds is a superset of the set after r rounds, and one round of the
dilation only ever writes the value 1 into a pixel, never clearing one. -/
theorem C8_dilation_monotone (nrows ncols : Nat) (bmask : NGrid)
    (r i j : Nat) (st : NGrid × List (Nat × Nat))
    (h : expand_mask nrows ncols bmask r i j ≠ 0) :
    expand_mask nrows ncols bmask (r + 1) i j ≠ 0 ∧
    ((expandRound nrows ncols st).1 i j = 1 ∨
      (expandRound nrows ncols st).1 i j = st.1 i j) := by
  constructor
  · have hstep : expandState nrows ncols bmask (r + 1) =
        expandRound nrows ncols (expandState nrows ncols bmask r) := by
      unfold expandState
      rw [Function.iterate_succ_apply']
    unfold expand_mask at h ⊢
    rw [hstep]
    simp only [expandRound]
    exact foldl_setPix_ne_zero _ _ _ _ h
  · simp only [expandRound]
    exact foldl_setPix_eval _ _ _ _

/-- Witness for C8 at a concrete 2x2 mask with one set pixel. -/
theorem C8_dilation_monotone_witness :
    expand_mask 2 2 (fun i j => if i = 0 ∧ j = 0 then 1 else 0) 1 0 0 ≠ 0 ∧
    ((expandRound 2 2 (fun _ _ => 0, [])).1 0 0 = 1 ∨
      (expandRound 2 2 (fun _ _ => 0, [])).1 0 0 = 0) :=
  C8_dilation_monotone 2 2 (fun i j => if i = 0 ∧ j = 0 then 1 else 0)
    0 0 0 (fun _ _ => 0, []) (by decide)

/-- numpy rounding of an exact integer value is that integer. -/
theorem npround_intCast (n : Int) : npround (n : Rat) = n := by
  unfold npround
  have h0 : ((n : Rat) - ⌊(n : Rat)⌋ : Rat) = 0 := by simp
  rw [h0]
  norm_num

/-- Mapping a pixel through the target jacobian and back through the
inverse of an identical source jacobian is the identity on coordinates. -/
theorem interp_row_identity (rowcen colcen : Rat) (J : Mat2)
    (hdet : J.det ≠ 0) (r c : Rat) :
    rowcen +
      ((r - rowcen) * J.a + (c - colcen) * J.b) * J.getI.a +
        ((r - rowcen) * J.c + (c - colcen) * J.d) * J.getI.b = r := by
  unfold Mat2.getI
  unfold Mat2.det at hdet ⊢
  field_simp
  ring

/-- The column analogue of interp_row_identity. -/
theorem interp_col_identity (rowcen colcen : Rat) (J : Mat2)
    (hdet : J.det ≠ 0) (r c : Rat) :
    colcen +
      ((r - rowcen) * J.a + (c - colcen) * J.b) * J.getI.c +
        ((r - rowcen) * J.c + (c - colcen) * J.d) * J.getI.d = c := by
  unfold Mat2.getI
  unfold Mat2.det at hdet ⊢
  field_simp
  ring

/-- When source and target frames coincide, interpolate_image copies each
in-bounds pixel from itself. -/
theorem interpolate_image_self (rowcen colcen : Rat) (J : Mat2)
    (im1 : IGrid) (nrows ncols : Nat) (hdet : J.det ≠ 0)
    (r c : Nat) (hr : r < nrows) (hc : c < ncols) :
    interpolate_image rowcen colcen J im1 nrows ncols rowcen colcen J r c =
      im1 r c := by
  unfold interpolate_image
  have hrow : rowcen +
      (((r : Rat) - rowcen) * J.a + ((c : Rat) - colcen) * J.b) * J.getI.a +
        (((r : Rat) - rowcen) * J.c + ((c : Rat) - colcen) * J.d) * J.getI.b
      = (r : Rat) := interp_row_identity rowcen colcen J hdet r c
  have hcol : colcen +
      (((r : Rat) - rowcen) * J.a + ((c : Rat) - colcen) * J.b) * J.getI.c +
        (((r : Rat) - rowcen) * J.c + ((c : Rat) - colcen) * J.d) * J.getI.d
      = (c : Rat) := interp_col_identity rowcen colcen J hdet r c
  simp only [add_assoc] at hrow hcol ⊢
  rw [hrow, hcol]
  have hr' : npround ((r : Rat)) = (r : Int) := by
    simpa using npround_intCast (r : Int)
  have hc' : npround ((c : Rat)) = (c : Int) := by
    simpa using npround_intCast (c : Int)
  rw [hr', hc']
  have hcond : 0 ≤ (r : Int) ∧ (r : Int) < (nrows : Int) ∧
      0 ≤ (c : Int) ∧ (c : Int) < (ncols : Int) := by
    refine ⟨Int.natCast_nonneg r, ?_, Int.natCast_nonneg c, ?_⟩
    · exact_mod_cast hr
    · exact_mod_cast hc
  rw [if_pos hcond]
  simp

/-- C7: when the source and target frames handed to the nearest-pixel
mask resampling interpolate_image are pixel-identical (equal centers,
equal jacobian matrices, shared shape) and the jacobian is invertible,
the resampling is the exact identity on every in-bounds pixel, and
resampling twice (reference to target and back) also reproduces the
original mask exactly. -/
theorem C7_interpolation_identity (rowcen colcen : Rat) (J : Mat2)
    (im1 : IGrid) (nrows ncols : Nat) (hdet : J.det ≠ 0)
    (r c : Nat) (hr : r < nrows) (hc : c < ncols) :
    interpolate_image rowcen colcen J im1 nrows ncols rowcen colcen J r c =
      im1 r c ∧
    interpolate_image rowcen colcen J
        (interpolate_image rowcen colcen J im1 nrows ncols rowcen colcen J)
        nrows ncols rowcen colcen J r c = im1 r c := by
  refine ⟨interpolate_image_self rowcen colcen J im1 nrows ncols hdet
    r c hr hc, ?_⟩
  rw [interpolate_image_self rowcen colcen J _ nrows ncols hdet r c hr hc]
  exact interpolate_image_self rowcen colcen J im1 nrows ncols hdet r c hr hc

/-- Witness for C7 at the unit jacobian and a concrete 2x2 mask. -/
theorem C7_interpolation_identity_witness :
    interpolate_image 0 0 ⟨1, 0, 0, 1⟩
        (fun i j => if i = 0 ∧ j = 1 then 1 else 0) 2 2 0 0 ⟨1, 0, 0, 1⟩
        0 1 = (fun i j : Nat => if i = 0 ∧ j = 1 then (1 : Int) else 0) 0 1 ∧
    interpolate_image 0 0 ⟨1, 0, 0, 1⟩
        (interpolate_image 0 0 ⟨1, 0, 0, 1⟩
          (fun i j => if i = 0 ∧ j = 1 then 1 else 0) 2 2 0 0 ⟨1, 0, 0, 1⟩)
        2 2 0 0 ⟨1, 0, 0, 1⟩ 0 1 =
      (fun i j : Nat => if i = 0 ∧ j = 1 then (1 : Int) else 0) 0 1 :=
  C7_interpolation_identity 0 0 ⟨1, 0, 0, 1⟩
    (fun i j => if i = 0 ∧ j = 1 then 1 else 0) 2 2
    (by norm_num [Mat2.det]) 0 1 (by decide) (by decide)

/-- The radial unit vector is orthogonal to the east basis vector. -/
theorem dot3_rhat_phat (theta phi : ℝ) :
    dot3 (thetaphi_to_unitvecs_ruv theta phi).1
      (thetaphi_to_unitvecs_ruv theta phi).2.1 = 0 := by
  unfold thetaphi_to_unitvecs_ruv dot3
  dsimp only
  ring

/-- The radial unit vector is orthogonal to the north basis vector. -/
theorem dot3_rhat_vhat (theta phi : ℝ) :
    dot3 (thetaphi_to_unitvecs_ruv theta phi).1
      (thetaphi_to_unitvecs_ruv theta phi).2.2 = 0 := by
  unfold thetaphi_to_unitvecs_ruv dot3
  dsimp only
  linear_combination (-(Real.sin theta * Real.cos theta)) *
    Real.sin_sq_add_cos_sq phi

/-- C6: when the neighbor and the central object share the same sky
position, the tangent-plane offset computed by the off-chip projection is
exactly (0, 0), and the derived neighbor jacobian is a copy of the central
jacobian: same center and same linear part. -/
theorem C6_offchip_null_offset (ra_cen dec_cen ra_nbr dec_nbr : ℝ)
    (J : JacobianR) (hra : ra_nbr = ra_cen) (hdec : dec_nbr = dec_cen) :
    offchipUV ra_cen dec_cen ra_nbr dec_nbr = (0, 0) ∧
    (offchipNbrJac ra_cen dec_cen ra_nbr dec_nbr J).row0 = J.row0 ∧
    (offchipNbrJac ra_cen dec_cen ra_nbr dec_nbr J).col0 = J.col0 ∧
    (offchipNbrJac ra_cen dec_cen ra_nbr dec_nbr J).dudrow = J.dudrow ∧
    (offchipNbrJac ra_cen dec_cen ra_nbr dec_nbr J).dudcol = J.dudcol ∧
    (offchipNbrJac ra_cen dec_cen ra_nbr dec_nbr J).dvdrow = J.dvdrow ∧
    (offchipNbrJac ra_cen dec_cen ra_nbr dec_nbr J).dvdcol = J.dvdcol := by
  rw [hra, hdec]
  have huv : offchipUV ra_cen dec_cen ra_cen dec_cen = (0, 0) := by
    unfold offchipUV radec_to_unitvecs_ruv
    dsimp only
    rw [dot3_rhat_phat, dot3_rhat_vhat]
    simp
  refine ⟨huv, ?_, ?_, rfl, rfl, rfl, rfl⟩
  · unfold offchipNbrJac
    rw [huv]
    dsimp only
    ring
  · unfold offchipNbrJac
    rw [huv]
    dsimp only
    ring

/-- Witness for C6 at the sky origin and a concrete jacobian. -/
theorem C6_offchip_null_offset_witness :
    offchipUV 0 0 0 0 = (0, 0) ∧
    (offchipNbrJac 0 0 0 0 ⟨2, 3, 1, 0, 0, 1⟩).row0 =
      (⟨2, 3, 1, 0, 0, 1⟩ : JacobianR).row0 ∧
    (offchipNbrJac 0 0 0 0 ⟨2, 3, 1, 0, 0, 1⟩).col0 =
      (⟨2, 3, 1, 0, 0, 1⟩ : JacobianR).col0 ∧
    (offchipNbrJac 0 0 0 0 ⟨2, 3, 1, 0, 0, 1⟩).dudrow =
      (⟨2, 3, 1, 0, 0, 1⟩ : JacobianR).dudrow ∧
    (offchipNbrJac 0 0 0 0 ⟨2, 3, 1, 0, 0, 1⟩).dudcol =
      (⟨2, 3, 1, 0, 0, 1⟩ : JacobianR).dudcol ∧
    (offchipNbrJac 0 0 0 0 ⟨2, 3, 1, 0, 0, 1⟩).dvdrow =
      (⟨2, 3, 1, 0, 0, 1⟩ : JacobianR).dvdrow ∧
    (offchipNbrJac 0 0 0 0 ⟨2, 3, 1, 0, 0, 1⟩).dvdcol =
      (⟨2, 3, 1, 0, 0, 1⟩ : JacobianR).dvdcol :=
  C6_offchip_null_offset 0 0 0 0 ⟨2, 3, 1, 0, 0, 1⟩ rfl rfl

/-- Zeroing a weight grid at a pixel list zeroes exactly the listed
pixels. -/
theorem zeroAtIndices_eval (q : List (Nat × Nat)) (w : Grid) (i j : Nat) :
    zeroAtIndices w q i j = if (i, j) ∈ q then 0 else w i j := by
  induction q generalizing w with
  | nil => simp [zeroAtIndices]
  | cons p t ih =>
    obtain ⟨p1, p2⟩ := p
    simp only [zeroAtIndices, List.foldl_cons] at ih ⊢
    rw [ih]
    by_cases hm : (i, j) ∈ t
    · simp [hm]
    · by_cases hp : i = p1 ∧ j = p2
      · simp [hm, hp, List.mem_cons, Prod.mk.injEq]
      · simp only [List.mem_cons, Prod.mk.injEq] at *
        simp [hm, hp]

/-- Membership in the pixel list built by the numpy.where of
_prop_extra_bitmasks. -/
theorem maskIndices_mem (nrows ncols : Nat) (bmaski : NGrid) (seg : IGrid)
    (i j : Nat) :
    (i, j) ∈ maskIndices nrows ncols bmaski seg ↔
      i < nrows ∧ j < ncols ∧ bmaski i j ≠ 0 ∧ seg i j = 0 := by
  unfold maskIndices
  simp only [List.mem_flatMap, List.mem_filterMap, List.mem_range]
  constructor
  · rintro ⟨a, ha, b, hb, hopt⟩
    by_cases hc : bmaski a b ≠ 0 ∧ seg a b = 0
    · rw [if_pos hc] at hopt
      obtain ⟨rfl, rfl⟩ : a = i ∧ b = j := by
        simpa [Prod.mk.injEq] using hopt
      exact ⟨ha, hb, hc.1, hc.2⟩
    · rw [if_neg hc] at hopt
      exact absurd hopt (by simp)
  · rintro ⟨hi, hj, hb, hs⟩
    exact ⟨i, hi, j, hj, by rw [if_pos ⟨hb, hs⟩]⟩

/-- Pointwise effect of zeroAtIndices over the mask pixel list, at an
in-bounds pixel. -/
theorem zeroAtIndices_maskIndices (nrows ncols : Nat) (bmaski : NGrid)
    (seg : IGrid) (w : Grid) (i j : Nat) (hi : i < nrows) (hj : j < ncols) :
    zeroAtIndices w (maskIndices nrows ncols bmaski seg) i j =
      if bmaski i j ≠ 0 ∧ seg i j = 0 then 0 else w i j := by
  rw [zeroAtIndices_eval]
  by_cases hP : bmaski i j ≠ 0 ∧ seg i j = 0
  · rw [if_pos ((maskIndices_mem nrows ncols bmaski seg i j).mpr
      ⟨hi, hj, hP.1, hP.2⟩), if_pos hP]
  · rw [if_neg (fun hmem =>
      hP ⟨((maskIndices_mem nrows ncols bmaski seg i j).mp hmem).2.2.1,
          ((maskIndices_mem nrows ncols bmaski seg i j).mp hmem).2.2.2⟩),
      if_neg hP]

/-- C2: the bitmask propagation zeroes every weight grid carried by an
observation exactly at the in-bounds pixels where the dilated resampled
mask is nonzero and the segmentation map is background (id 0); pixels
with a nonzero segmentation id keep their weight, and the pixel image
and segmentation map are unchanged. -/
theorem C2_prop_weights (bmaski : NGrid) (o : Obs) (i j : Nat)
    (wus worig : Grid) (hi : i < o.nrows) (hj : j < o.ncols)
    (hus : o.weight_us = some wus) (horig : o.weight_orig = some worig) :
    ((propExtraBitmasksObs bmaski o).weight i j =
      if bmaski i j ≠ 0 ∧ o.seg i j = 0 then 0 else o.weight i j) ∧
    ((propExtraBitmasksObs bmaski o).weight_raw i j =
      if bmaski i j ≠ 0 ∧ o.seg i j = 0 then 0 else o.weight_raw i j) ∧
    ((propExtraBitmasksObs bmaski o).weight_us =
      some (zeroAtIndices wus (maskIndices o.nrows o.ncols bmaski o.seg))) ∧
    (zeroAtIndices wus (maskIndices o.nrows o.ncols bmaski o.seg) i j =
      if bmaski i j ≠ 0 ∧ o.seg i j = 0 then 0 else wus i j) ∧
    ((propExtraBitmasksObs bmaski o).weight_orig =
      some (zeroAtIndices worig (maskIndices o.nrows o.ncols bmaski o.seg))) ∧
    (zeroAtIndices worig (maskIndices o.nrows o.ncols bmaski o.seg) i j =
      if bmaski i j ≠ 0 ∧ o.seg i j = 0 then 0 else worig i j) ∧
    ((propExtraBitmasksObs bmaski o).image = o.image) ∧
    ((propExtraBitmasksObs bmaski o).seg = o.seg) ∧
    (o.seg i j ≠ 0 →
      (propExtraBitmasksObs bmaski o).weight i j = o.weight i j) := by
  have hz : ∀ w : Grid,
      zeroAtIndices w (maskIndices o.nrows o.ncols bmaski o.seg) i j =
        if bmaski i j ≠ 0 ∧ o.seg i j = 0 then 0 else w i j :=
    fun w => zeroAtIndices_maskIndices o.nrows o.ncols bmaski o.seg w i j hi hj
  unfold propExtraBitmasksObs
  by_cases hq : (maskIndices o.nrows o.ncols bmaski o.seg).length > 0
  · rw [if_pos hq]
    refine ⟨hz o.weight, hz o.weight_raw, ?_, hz wus, ?_, hz worig, rfl, rfl, ?_⟩
    · rw [hus]
      rfl
    · rw [horig]
      rfl
    · intro hseg
      exact (hz o.weight).trans (if_neg (fun hP => hseg hP.2))
  · rw [if_neg hq]
    have hnil : maskIndices o.nrows o.ncols bmaski o.seg = [] :=
      List.length_eq_zero.mp (Nat.eq_zero_of_not_pos hq)
    have hnP : ¬ (bmaski i j ≠ 0 ∧ o.seg i j = 0) := by
      intro hP
      have : (i, j) ∈ maskIndices o.nrows o.ncols bmaski o.seg :=
        (maskIndices_mem o.nrows o.ncols bmaski o.seg i j).mpr
          ⟨hi, hj, hP.1, hP.2⟩
      rw [hnil] at this
      exact absurd this (List.not_mem_nil _)
    rw [hnil]
    refine ⟨by rw [if_neg hnP], by rw [if_neg hnP], by rw [hus]; rfl,
      by rw [if_neg hnP]; rfl, by rw [horig]; rfl,
      by rw [if_neg hnP]; rfl, rfl, rfl, fun _ => rfl⟩

/-- Witness for C2 at a concrete mask and the concrete 2x2 sample
observation, whose pixel (0, 1) is background and pixel (0, 0) belongs
to the object. -/
theorem C2_prop_weights_witness :
    ((propExtraBitmasksObs (fun _ _ => 1) goodSampleObs).weight 0 1 =
      if (fun _ _ : Nat => (1 : Nat)) 0 1 ≠ 0 ∧ goodSampleObs.seg 0 1 = 0
      then 0 else goodSampleObs.weight 0 1) ∧
    ((propExtraBitmasksObs (fun _ _ => 1) goodSampleObs).weight_raw 0 1 =
      if (fun _ _ : Nat => (1 : Nat)) 0 1 ≠ 0 ∧ goodSampleObs.seg 0 1 = 0
      then 0 else goodSampleObs.weight_raw 0 1) ∧
    ((propExtraBitmasksObs (fun _ _ => 1) goodSampleObs).weight_us =
      some (zeroAtIndices (fun _ _ => 1)
        (maskIndices goodSampleObs.nrows goodSampleObs.ncols
          (fun _ _ => 1) goodSampleObs.seg))) ∧
    (zeroAtIndices (fun _ _ => 1)
        (maskIndices goodSampleObs.nrows goodSampleObs.ncols
          (fun _ _ => 1) goodSampleObs.seg) 0 1 =
      if (fun _ _ : Nat => (1 : Nat)) 0 1 ≠ 0 ∧ goodSampleObs.seg 0 1 = 0
      then 0 else (fun _ _ : Nat => (1 : Rat)) 0 1) ∧
    ((propExtraBitmasksObs (fun _ _ => 1) goodSampleObs).weight_orig =
      some (zeroAtIndices (fun _ _ => 1)
        (maskIndices goodSampleObs.nrows goodSampleObs.ncols
          (fun _ _ => 1) goodSampleObs.seg))) ∧
    (zeroAtIndices (fun _ _ => 1)
        (maskIndices goodSampleObs.nrows goodSampleObs.ncols
          (fun _ _ => 1) goodSampleObs.seg) 0 1 =
      if (fun _ _ : Nat => (1 : Nat)) 0 1 ≠ 0 ∧ goodSampleObs.seg 0 1 = 0
      then 0 else (fun _ _ : Nat => (1 : Rat)) 0 1) ∧
    ((propExtraBitmasksObs (fun _ _ => 1) goodSampleObs).image =
      goodSampleObs.image) ∧
    ((propExtraBitmasksObs (fun _ _ => 1) goodSampleObs).seg =
      goodSampleObs.seg) ∧
    (goodSampleObs.seg 0 1 ≠ 0 →
      (propExtraBitmasksObs (fun _ _ => 1) goodSampleObs).weight 0 1 =
        goodSampleObs.weight 0 1) :=
  C2_prop_weights (fun _ _ => 1) goodSampleObs 0 1
    (fun _ _ => 1) (fun _ _ => 1) (by decide) (by decide) rfl rfl

/-- Indexing a mapped list below its length applies the function to the
corresponding element, for any defaults. -/
theorem getD_map_lt {α β : Type} (l : List α) (f : α → β) (k : Nat)
    (d : β) (d' : α) (hkl : k < l.length) :
    (l.map f).getD k d = f (l.getD k d') := by
  induction l generalizing k with
  | nil => simp at hkl
  | cons a t ih =>
    cases k with
    | zero => rfl
    | succ k' =>
      simp only [List.length_cons, Nat.succ_lt_succ_iff] at hkl
      simpa using ih k' hkl

/-- C9 counterexample: with a zero flags-to-check mask, an image whose key
is absent from the replacement table gets the default flag 0, reduces to
0, and its slot is built unflagged (usable) — not "always marked
unusable". -/
theorem C9_counterexample :
    getFlagsCombined [] id "b" 0 = 0 ∧
    loadBandImageFlags 0 true [] id ["a", "b"] [0, 7] = [0, 0] ∧
    (buildSlot (loadBandImageFlags 0 true [] id ["a", "b"] [0, 7])
      (fun _ => goodSampleObs) (fun _ => 3) 7 1).flags = 0 :=
  ⟨rfl, rfl, rfl⟩

/-- C9 (amended): an image whose derived key is absent from the
replacement table gets the configured flags-to-check bitmask itself as
its flag, and — provided that bitmask is nonzero — the binary reduction
then always marks the image unusable (IMAGE_FLAGS_SET). -/
theorem C9_absent_key_default (chk : Nat) (data : List (String × Nat))
    (getKey : String → String) (name : String)
    (h : data.lookup (getKey name) = none) (hchk : chk ≠ 0) :
    getFlagsCombined data getKey name chk = chk ∧
    getReplacementFlags chk data getKey [name] = [chk] ∧
    reduceFlag chk (getFlagsCombined data getKey name chk) =
      IMAGE_FLAGS_SET ∧
    IMAGE_FLAGS_SET ≠ 0 := by
  have hg : getFlagsCombined data getKey name chk = chk := by
    unfold getFlagsCombined
    rw [h]
  refine ⟨hg, ?_, ?_, by decide⟩
  · unfold getReplacementFlags getFlagsMulti
    simp [hg]
  · rw [hg]
    unfold reduceFlag
    rw [if_pos]
    have hs : chk &&& chk = chk := by simp
    rw [hs]
    exact hchk

/-- Witness for C9 at a concrete table missing the queried key. -/
theorem C9_absent_key_default_witness :
    getFlagsCombined [("k", 3)] id "x" 2 = 2 ∧
    getReplacementFlags 2 [("k", 3)] id ["x"] = [2] ∧
    reduceFlag 2 (getFlagsCombined [("k", 3)] id "x" 2) = IMAGE_FLAGS_SET ∧
    IMAGE_FLAGS_SET ≠ 0 :=
  C9_absent_key_default 2 [("k", 3)] id "x" rfl (by decide)

/-- C3 counterexample: the stored flag of the reference image (index 0)
is its raw flag, not a reduced value; with a nonzero raw coadd flag the
coadd slot is built flagged (IMAGE_FLAGS), so index 0 is not "always
treated as present". -/
theorem C3_counterexample :
    loadBandImageFlags 1 false [] id [] [5, 1, 2] = [5, 1, 0] ∧
    (buildSlot (loadBandImageFlags 1 false [] id [] [5, 1, 2])
      (fun _ => goodSampleObs) (fun _ => 3) 7 0).flags = IMAGE_FLAGS ∧
    IMAGE_FLAGS ≠ 0 :=
  ⟨rfl, rfl, by decide⟩

/-- C3 (amended): for each band the reference image (index 0) is never
reduced — it retains its raw flag, and the replacement override applies
only to the other entries; every other image's flag, overridden from the
replacement table when one is configured, is reduced to IMAGE_FLAGS_SET
exactly when (flags & image_flags2check) != 0 and to 0 otherwise, and the
array keeps one entry per image. -/
theorem C3_flag_reduction (chk : Nat) (useRepl : Bool)
    (replData : List (String × Nat)) (getKey : String → String)
    (paths : List String) (raw : List Nat) (k : Nat)
    (hlen : paths.length = raw.length) (hk : k + 1 < raw.length) :
    (loadBandImageFlags chk useRepl replData getKey paths raw).head? =
      raw.head? ∧
    (loadBandImageFlags chk useRepl replData getKey paths raw).length =
      raw.length ∧
    (loadBandImageFlags chk useRepl replData getKey paths raw).getD (k + 1) 0
      = reduceFlag chk
          (overriddenRawFlag chk useRepl replData getKey paths raw k) := by
  match raw, paths with
  | [], _ => simp at hk
  | r0 :: rt, [] => simp at hlen
  | r0 :: rt, p0 :: pt =>
    simp only [List.length_cons] at hlen hk
    have hkrt : k < rt.length := by omega
    have hkpt : k < pt.length := by omega
    unfold loadBandImageFlags overriddenRawFlag getReplacementFlags
      getFlagsMulti
    by_cases hguard : useRepl ∧ (r0 :: rt).length > 1
    · rw [if_pos hguard, if_pos hguard]
      simp only [List.take_succ_cons, List.take_zero, List.drop_succ_cons,
        List.drop_zero, List.singleton_append, List.head?_cons,
        List.length_cons, List.length_map, List.getD_cons_succ]
      refine ⟨trivial, by omega, ?_⟩
      rw [List.map_map]
      exact getD_map_lt pt _ k 0 "" hkpt
    · rw [if_neg hguard, if_neg hguard]
      simp only [List.take_succ_cons, List.take_zero, List.drop_succ_cons,
        List.drop_zero, List.singleton_append, List.head?_cons,
        List.length_cons, List.length_map, List.getD_cons_succ]
      exact ⟨trivial, trivial, getD_map_lt rt _ k 0 0 hkrt⟩

/-- Witness for C3 at a concrete two-image band with a replacement
table. -/
theorem C3_flag_reduction_witness :
    (loadBandImageFlags 1 true [("b", 4)] id ["a", "b"] [5, 7]).head? =
      ([5, 7] : List Nat).head? ∧
    (loadBandImageFlags 1 true [("b", 4)] id ["a", "b"] [5, 7]).length =
      ([5, 7] : List Nat).length ∧
    (loadBandImageFlags 1 true [("b", 4)] id ["a", "b"] [5, 7]).getD 1 0 =
      reduceFlag 1 (overriddenRawFlag 1 true [("b", 4)] id ["a", "b"] [5, 7] 0)
    :=
  C3_flag_reduction 1 true [("b", 4)] id ["a", "b"] [5, 7] 0 rfl (by decide)

/-- The append-fold of the neighbor loop, from an arbitrary
accumulator. -/
theorem addNbrs_foldl_general (inds : List Nat)
    (getPair : Nat → Option Nat × Option JacobianR) (objFlags : Nat → Nat)
    (a : List (Option Nat)) (b : List Nat) (c : List (Option JacobianR)) :
    inds.foldl
      (fun acc ind =>
        let pr := getPair ind
        (acc.1 ++ [pr.1],
         acc.2.1 ++
          [if pr.1.isNone ∨ pr.2.isNone ∨ objFlags ind ≠ 0 then 1 else 0],
         acc.2.2 ++ [pr.2]))
      (a, b, c) =
    (a ++ inds.map (fun ind => (getPair ind).1),
     b ++ inds.map (fun ind =>
       if (getPair ind).1.isNone ∨ (getPair ind).2.isNone ∨ objFlags ind ≠ 0
       then 1 else 0),
     c ++ inds.map (fun ind => (getPair ind).2)) := by
  induction inds generalizing a b c with
  | nil => simp
  | cons i t ih =>
    simp only [List.foldl_cons, List.map_cons]
    rw [ih]
    simp

/-- The three neighbor sequences are the pointwise maps of the neighbor
index list. -/
theorem addNbrs_eq_maps (inds : List Nat)
    (getPair : Nat → Option Nat × Option JacobianR) (objFlags : Nat → Nat) :
    addNbrsPsfsAndJacs inds getPair objFlags =
      (inds.map (fun ind => (getPair ind).1),
       inds.map (fun ind =>
         if (getPair ind).1.isNone ∨ (getPair ind).2.isNone ∨ objFlags ind ≠ 0
         then 1 else 0),
       inds.map (fun ind => (getPair ind).2)) := by
  unfold addNbrsPsfsAndJacs
  simpa using addNbrs_foldl_general inds getPair objFlags [] [] []

/-- C10: the neighbor loop produces one PSF, one jacobian and one flag
per neighbor, in neighbor order; the per-neighbor flag is 0 exactly when
the PSF is present, the jacobian is present and the neighbor's aggregate
object flag is 0; in particular a neighbor with a nonzero aggregate
object flag is marked 1 even when a PSF and a jacobian were produced. -/
theorem C10_nbr_flags (inds : List Nat)
    (getPair : Nat → Option Nat × Option JacobianR) (objFlags : Nat → Nat)
    (k : Nat) (hk : k < inds.length) :
    (addNbrsPsfsAndJacs inds getPair objFlags).1.length = inds.length ∧
    (addNbrsPsfsAndJacs inds getPair objFlags).2.1.length = inds.length ∧
    (addNbrsPsfsAndJacs inds getPair objFlags).2.2.length = inds.length ∧
    (addNbrsPsfsAndJacs inds getPair objFlags).1.getD k none =
      (getPair (inds.getD k 0)).1 ∧
    (addNbrsPsfsAndJacs inds getPair objFlags).2.2.getD k none =
      (getPair (inds.getD k 0)).2 ∧
    ((addNbrsPsfsAndJacs inds getPair objFlags).2.1.getD k 1 = 0 ↔
      ((getPair (inds.getD k 0)).1.isSome ∧
       (getPair (inds.getD k 0)).2.isSome ∧
       objFlags (inds.getD k 0) = 0)) ∧
    (objFlags (inds.getD k 0) ≠ 0 →
      (addNbrsPsfsAndJacs inds getPair objFlags).2.1.getD k 1 = 1) := by
  rw [addNbrs_eq_maps]
  refine ⟨by simp, by simp, by simp,
    getD_map_lt inds _ k none 0 hk,
    getD_map_lt inds _ k none 0 hk, ?_, ?_⟩
  · rw [getD_map_lt inds _ k 1 0 hk]
    rcases hp : (getPair (inds.getD k 0)).1 with _ | pv
    · simp [hp]
    · rcases hj : (getPair (inds.getD k 0)).2 with _ | jv
      · simp [hp, hj]
      · by_cases hf : objFlags (inds.getD k 0) = 0
        · simp [hp, hj, hf]
        · simp [hp, hj, hf]
  · intro hf
    rw [getD_map_lt inds _ k 1 0 hk]
    rw [if_pos (Or.inr (Or.inr hf))]

/-- Witness for C10 at a single concrete neighbor with a produced PSF and
jacobian but a nonzero aggregate object flag. -/
theorem C10_nbr_flags_witness :
    (addNbrsPsfsAndJacs [4] (fun _ => (some 2, some ⟨0, 0, 1, 0, 0, 1⟩))
      (fun _ => 8)).1.length = ([4] : List Nat).length ∧
    (addNbrsPsfsAndJacs [4] (fun _ => (some 2, some ⟨0, 0, 1, 0, 0, 1⟩))
      (fun _ => 8)).2.1.length = ([4] : List Nat).length ∧
    (addNbrsPsfsAndJacs [4] (fun _ => (some 2, some ⟨0, 0, 1, 0, 0, 1⟩))
      (fun _ => 8)).2.2.length = ([4] : List Nat).length ∧
    (addNbrsPsfsAndJacs [4] (fun _ => (some 2, some ⟨0, 0, 1, 0, 0, 1⟩))
      (fun _ => 8)).1.getD 0 none =
      ((fun _ : Nat => ((some 2 : Option Nat),
        (some ⟨0, 0, 1, 0, 0, 1⟩ : Option JacobianR))) (([4] : List Nat).getD 0 0)).1 ∧
    (addNbrsPsfsAndJacs [4] (fun _ => (some 2, some ⟨0, 0, 1, 0, 0, 1⟩))
      (fun _ => 8)).2.2.getD 0 none =
      ((fun _ : Nat => ((some 2 : Option Nat),
        (some ⟨0, 0, 1, 0, 0, 1⟩ : Option JacobianR))) (([4] : List Nat).getD 0 0)).2 ∧
    ((addNbrsPsfsAndJacs [4] (fun _ => (some 2, some ⟨0, 0, 1, 0, 0, 1⟩))
      (fun _ => 8)).2.1.getD 0 1 = 0 ↔
      (((fun _ : Nat => ((some 2 : Option Nat),
          (some ⟨0, 0, 1, 0, 0, 1⟩ : Option JacobianR))) (([4] : List Nat).getD 0 0)).1.isSome ∧
       ((fun _ : Nat => ((some 2 : Option Nat),
          (some ⟨0, 0, 1, 0, 0, 1⟩ : Option JacobianR))) (([4] : List Nat).getD 0 0)).2.isSome ∧
       (fun _ : Nat => (8 : Nat)) (([4] : List Nat).getD 0 0) = 0)) ∧
    ((fun _ : Nat => (8 : Nat)) (([4] : List Nat).getD 0 0) ≠ 0 →
      (addNbrsPsfsAndJacs [4] (fun _ => (some 2, some ⟨0, 0, 1, 0, 0, 1⟩))
        (fun _ => 8)).2.1.getD 0 1 = 1) :=
  C10_nbr_flags [4] (fun _ => (some 2, some ⟨0, 0, 1, 0, 0, 1⟩))
    (fun _ => 8) 0 (by decide)

/-- Writing the rejected weights back preserves the number of
observations. -/
theorem assignWeightsBack_length (l : List Obs) (wts : List Grid) :
    (assignWeightsBack l wts).length = l.length := by
  induction l generalizing wts with
  | nil => rfl
  | cons o t ih =>
    unfold assignWeightsBack
    cases hb : (o.flags == 0) with
    | true => simp [hb, ih]
    | false => simp [hb, ih]

/-- Writing the rejected weights back leaves every field except the
weight of every observation unchanged. -/
theorem assignWeightsBack_fields (l : List Obs) (wts : List Grid) (i : Nat)
    (d : Obs) :
    ((assignWeightsBack l wts).getD i d).flags = (l.getD i d).flags ∧
    ((assignWeightsBack l wts).getD i d).image = (l.getD i d).image ∧
    ((assignWeightsBack l wts).getD i d).seg = (l.getD i d).seg ∧
    ((assignWeightsBack l wts).getD i d).nrows = (l.getD i d).nrows ∧
    ((assignWeightsBack l wts).getD i d).ncols = (l.getD i d).ncols ∧
    ((assignWeightsBack l wts).getD i d).weight_raw =
      (l.getD i d).weight_raw ∧
    ((assignWeightsBack l wts).getD i d).weight_us = (l.getD i d).weight_us ∧
    ((assignWeightsBack l wts).getD i d).weight_orig =
      (l.getD i d).weight_orig ∧
    ((assignWeightsBack l wts).getD i d).file_id = (l.getD i d).file_id ∧
    ((assignWeightsBack l wts).getD i d).oid = (l.getD i d).oid ∧
    ((assignWeightsBack l wts).getD i d).icut = (l.getD i d).icut ∧
    ((assignWeightsBack l wts).getD i d).psf = (l.getD i d).psf := by
  induction l generalizing wts i with
  | nil =>
    exact ⟨rfl, rfl, rfl, rfl, rfl, rfl, rfl, rfl, rfl, rfl, rfl, rfl⟩
  | cons o t ih =>
    unfold assignWeightsBack
    cases hb : (o.flags == 0) with
    | true =>
      cases i with
      | zero =>
        simp only [hb, if_true]
        exact ⟨rfl, rfl, rfl, rfl, rfl, rfl, rfl, rfl, rfl, rfl, rfl, rfl⟩
      | succ n =>
        simp only [hb, if_true, List.getD_cons_succ]
        exact ih wts.tail n
    | false =>
      cases i with
      | zero =>
        rw [if_neg (by simp [hb])]
        exact ⟨rfl, rfl, rfl, rfl, rfl, rfl, rfl, rfl, rfl, rfl, rfl, rfl⟩
      | succ n =>
        rw [if_neg (by simp [hb])]
        simp only [List.getD_cons_succ]
        exact ih wts n

/-- A status-flagged observation is completely unchanged by the weight
write-back. -/
theorem assignWeightsBack_flagged (l : List Obs) (wts : List Grid) (i : Nat)
    (d : Obs) (hf : (l.getD i d).flags ≠ 0) :
    (assignWeightsBack l wts).getD i d = l.getD i d := by
  induction l generalizing wts i with
  | nil => rfl
  | cons o t ih =>
    unfold assignWeightsBack
    cases i with
    | zero =>
      have hb : (o.flags == 0) = false := by
        simpa using hf
      simp [hb]
    | succ n =>
      have hf' : (t.getD n d).flags ≠ 0 := by
        simpa [List.getD_cons_succ] using hf
      cases hb : (o.flags == 0) with
      | true => simpa [hb, List.getD_cons_succ] using ih wts.tail n hf'
      | false => simpa [hb, List.getD_cons_succ] using ih wts n hf'

/-- Erasing a status-flagged observation does not change the filtered
list of usable observations. -/
theorem filter_eraseIdx_flagged (l : List Obs) (i : Nat) (d : Obs)
    (hf : (l.getD i d).flags ≠ 0) :
    (l.eraseIdx i).filter (fun o => o.flags == 0) =
      l.filter (fun o => o.flags == 0) := by
  induction l generalizing i with
  | nil => rfl
  | cons o t ih =>
    cases i with
    | zero =>
      have hb : (o.flags == 0) = false := by simpa using hf
      rw [List.eraseIdx_cons_zero, List.filter_cons, if_neg (by simp [hb])]
    | succ n =>
      have hf' : (t.getD n d).flags ≠ 0 := by
        simpa [List.getD_cons_succ] using hf
      rw [List.eraseIdx_cons_succ, List.filter_cons, List.filter_cons,
        ih n hf']

/-- The flagged observation of a band contributes neither its image nor
its weight to the outlier rejection inputs. -/
theorem goodLists_eraseIdx_flagged (l : List Obs) (i : Nat) (d : Obs)
    (hf : (l.getD i d).flags ≠ 0) :
    goodImages (l.eraseIdx i) = goodImages l ∧
    goodWeights (l.eraseIdx i) = goodWeights l := by
  unfold goodImages goodWeights
  rw [filter_eraseIdx_flagged l i d hf]
  exact ⟨rfl, rfl⟩

/-- C5 counterexample: with outlier rejection enabled and a band whose
single-epoch list holds exactly one status-flagged observation, the
outlier rejection pass is entered although zero usable (status flag 0)
single epochs exist — refuting "run if and only if at least one usable
single epoch exists". -/
theorem C5_counterexample :
    outlierPassRun true [flaggedSampleObs] = true ∧
    goodImages [flaggedSampleObs] = [] ∧
    goodWeights [flaggedSampleObs] = [] ∧
    ([flaggedSampleObs].filter (fun o => o.flags == 0)).length = 0 :=
  ⟨rfl, rfl, rfl, rfl⟩

/-- C5 (amended): the per-band outlier rejection pass is entered exactly
when it is enabled in the configuration and the band has at least one
single-epoch slot, usable or not; when it runs, only status-flag-0
observations contribute their images and weights (a flagged epoch
contributes nothing), and only the weight maps of observations may be
modified — a flagged observation is returned completely unchanged. -/
theorem C5_outlier_pass (conf : Bool) (obs_list : List Obs)
    (rj : List Grid → List Grid → List Grid) (i i2 : Nat) (d : Obs)
    (hfl : (obs_list.getD i d).flags ≠ 0) :
    (outlierPassRun conf obs_list = true ↔ conf = true ∧ obs_list ≠ []) ∧
    (rejectOutliers rj obs_list).length = obs_list.length ∧
    goodImages (obs_list.eraseIdx i) = goodImages obs_list ∧
    goodWeights (obs_list.eraseIdx i) = goodWeights obs_list ∧
    (rejectOutliers rj obs_list).getD i d = obs_list.getD i d ∧
    ((rejectOutliers rj obs_list).getD i2 d).flags =
      (obs_list.getD i2 d).flags ∧
    ((rejectOutliers rj obs_list).getD i2 d).image =
      (obs_list.getD i2 d).image ∧
    ((rejectOutliers rj obs_list).getD i2 d).seg = (obs_list.getD i2 d).seg ∧
    ((rejectOutliers rj obs_list).getD i2 d).nrows =
      (obs_list.getD i2 d).nrows ∧
    ((rejectOutliers rj obs_list).getD i2 d).ncols =
      (obs_list.getD i2 d).ncols ∧
    ((rejectOutliers rj obs_list).getD i2 d).weight_raw =
      (obs_list.getD i2 d).weight_raw ∧
    ((rejectOutliers rj obs_list).getD i2 d).weight_us =
      (obs_list.getD i2 d).weight_us ∧
    ((rejectOutliers rj obs_list).getD i2 d).weight_orig =
      (obs_list.getD i2 d).weight_orig := by
  have hrun : outlierPassRun conf obs_list = true ↔
      conf = true ∧ obs_list ≠ [] := by
    unfold outlierPassRun
    rw [Bool.and_eq_true]
    constructor
    · rintro ⟨hc, hl⟩
      refine ⟨hc, ?_⟩
      intro hnil
      rw [hnil] at hl
      simp at hl
    · rintro ⟨hc, hl⟩
      refine ⟨hc, ?_⟩
      simpa using List.length_pos.mpr hl
  have hfields := assignWeightsBack_fields obs_list
    (rj (goodImages obs_list) (goodWeights obs_list)) i2 d
  have herase := goodLists_eraseIdx_flagged obs_list i d hfl
  exact ⟨hrun, assignWeightsBack_length _ _, herase.1, herase.2,
    assignWeightsBack_flagged _ _ i d hfl, hfields.1, hfields.2.1,
    hfields.2.2.1, hfields.2.2.2.1, hfields.2.2.2.2.1,
    hfields.2.2.2.2.2.1, hfields.2.2.2.2.2.2.1,
    hfields.2.2.2.2.2.2.2.1⟩

/-- Witness for C5 at a concrete one-flagged-one-good band list. -/
theorem C5_outlier_pass_witness :
    (outlierPassRun true [flaggedSampleObs, goodSampleObs] = true ↔
      true = true ∧ ([flaggedSampleObs, goodSampleObs] : List Obs) ≠ []) ∧
    (rejectOutliers (fun _ w => w) [flaggedSampleObs, goodSampleObs]).length
      = ([flaggedSampleObs, goodSampleObs] : List Obs).length ∧
    goodImages ([flaggedSampleObs, goodSampleObs].eraseIdx 0) =
      goodImages [flaggedSampleObs, goodSampleObs] ∧
    goodWeights ([flaggedSampleObs, goodSampleObs].eraseIdx 0) =
      goodWeights [flaggedSampleObs, goodSampleObs] ∧
    (rejectOutliers (fun _ w => w)
        [flaggedSampleObs, goodSampleObs]).getD 0 goodSampleObs =
      ([flaggedSampleObs, goodSampleObs] : List Obs).getD 0 goodSampleObs ∧
    ((rejectOutliers (fun _ w => w)
        [flaggedSampleObs, goodSampleObs]).getD 1 goodSampleObs).flags =
      (([flaggedSampleObs, goodSampleObs] : List Obs).getD 1
        goodSampleObs).flags ∧
    ((rejectOutliers (fun _ w => w)
        [flaggedSampleObs, goodSampleObs]).getD 1 goodSampleObs).image =
      (([flaggedSampleObs, goodSampleObs] : List Obs).getD 1
        goodSampleObs).image ∧
    ((rejectOutliers (fun _ w => w)
        [flaggedSampleObs, goodSampleObs]).getD 1 goodSampleObs).seg =
      (([flaggedSampleObs, goodSampleObs] : List Obs).getD 1
        goodSampleObs).seg ∧
    ((rejectOutliers (fun _ w => w)
        [flaggedSampleObs, goodSampleObs]).getD 1 goodSampleObs).nrows =
      (([flaggedSampleObs, goodSampleObs] : List Obs).getD 1
        goodSampleObs).nrows ∧
    ((rejectOutliers (fun _ w => w)
        [flaggedSampleObs, goodSampleObs]).getD 1 goodSampleObs).ncols =
      (([flaggedSampleObs, goodSampleObs] : List Obs).getD 1
        goodSampleObs).ncols ∧
    ((rejectOutliers (fun _ w => w)
        [flaggedSampleObs, goodSampleObs]).getD 1 goodSampleObs).weight_raw =
      (([flaggedSampleObs, goodSampleObs] : List Obs).getD 1
        goodSampleObs).weight_raw ∧
    ((rejectOutliers (fun _ w => w)
        [flaggedSampleObs, goodSampleObs]).getD 1 goodSampleObs).weight_us =
      (([flaggedSampleObs, goodSampleObs] : List Obs).getD 1
        goodSampleObs).weight_us ∧
    ((rejectOutliers (fun _ w => w)
        [flaggedSampleObs, goodSampleObs]).getD 1 goodSampleObs).weight_orig
      = (([flaggedSampleObs, goodSampleObs] : List Obs).getD 1
        goodSampleObs).weight_orig :=
  C5_outlier_pass true [flaggedSampleObs, goodSampleObs] (fun _ w => w)
    0 1 goodSampleObs (by decide)

/-- C1: a slot marked unusable by the image-quality reducer (nonzero
reduced image flag) is built as a zero-size (0x0) observation whose
status flag is the nonzero IMAGE_FLAGS bit; a status-flagged observation
contributes neither image nor weight to the per-band outlier rejection
pass and is returned by it unchanged; and the on-chip neighbor reuse
never returns a result when the selected source observation carries a
nonzero status flag (the source assert aborts instead). -/
theorem C1_flagged_epochs (imageFlags : List Nat) (fetch : Nat → Obs)
    (fid : Nat → Int) (objId : Int) (icut : Nat)
    (hflag : imageFlags.getD icut 0 ≠ 0)
    (rj : List Grid → List Grid → List Grid) (obs_list : List Obs)
    (i : Nat) (d : Obs) (hfl : (obs_list.getD i d).flags ≠ 0)
    (cenFileId nbrId : Int) (l : List Obs) (o : Obs)
    (hsel : selectNbrObs cenFileId nbrId l = some o) (hof : o.flags ≠ 0)
    (mfid : Nat → Int) (mjac : Nat → JacobianR)
    (off res : Option (Nat × JacobianR)) :
    (buildSlot imageFlags fetch fid objId icut).nrows = 0 ∧
    (buildSlot imageFlags fetch fid objId icut).ncols = 0 ∧
    (buildSlot imageFlags fetch fid objId icut).flags = IMAGE_FLAGS ∧
    IMAGE_FLAGS ≠ 0 ∧
    goodImages (obs_list.eraseIdx i) = goodImages obs_list ∧
    goodWeights (obs_list.eraseIdx i) = goodWeights obs_list ∧
    (rejectOutliers rj obs_list).getD i d = obs_list.getD i d ∧
    getNbrPsfObsAndJac cenFileId nbrId l mfid mjac off ≠ Except.ok res := by
  have herase := goodLists_eraseIdx_flagged obs_list i d hfl
  have hflag2 : imageFlags[icut]?.getD 0 ≠ 0 := by
    simpa [List.getD_eq_getElem?_getD] using hflag
  refine ⟨?_, ?_, ?_, by decide, herase.1, herase.2,
    assignWeightsBack_flagged _ _ i d hfl, ?_⟩
  · simp [buildSlot, hflag2]
  · simp [buildSlot, hflag2]
  · simp [buildSlot, hflag2]
  · unfold getNbrPsfObsAndJac
    rw [hsel]
    dsimp only
    rw [if_pos hof]
    intro hcontra
    exact Except.noConfusion hcontra

/-- Witness for C1 at a concrete flagged slot, a concrete flagged epoch
in a band list, and a concrete neighbor list whose matching observation
is flagged. -/
theorem C1_flagged_epochs_witness :
    (buildSlot [0, 3] (fun _ => goodSampleObs) (fun _ => 3) 7 1).nrows = 0 ∧
    (buildSlot [0, 3] (fun _ => goodSampleObs) (fun _ => 3) 7 1).ncols = 0 ∧
    (buildSlot [0, 3] (fun _ => goodSampleObs) (fun _ => 3) 7 1).flags =
      IMAGE_FLAGS ∧
    IMAGE_FLAGS ≠ 0 ∧
    goodImages ([flaggedSampleObs].eraseIdx 0) =
      goodImages [flaggedSampleObs] ∧
    goodWeights ([flaggedSampleObs].eraseIdx 0) =
      goodWeights [flaggedSampleObs] ∧
    (rejectOutliers (fun _ w => w) [flaggedSampleObs]).getD 0 goodSampleObs
      = ([flaggedSampleObs] : List Obs).getD 0 goodSampleObs ∧
    getNbrPsfObsAndJac 3 7 [flaggedSampleObs] (fun _ => 3)
      (fun _ => ⟨0, 0, 1, 0, 0, 1⟩) none ≠ Except.ok none :=
  C1_flagged_epochs [0, 3] (fun _ => goodSampleObs) (fun _ => 3) 7 1
    (by decide) (fun _ w => w) [flaggedSampleObs] 0 goodSampleObs
    (by decide) 3 7 [flaggedSampleObs] flaggedSampleObs rfl (by decide)
    (fun _ => 3) (fun _ => ⟨0, 0, 1, 0, 0, 1⟩) none none

/-- The sorted-unique column extraction is sorted. -/
theorem npUniqueSorted_sorted (l : List Int) :
    (npUniqueSorted l).Sorted (· ≤ ·) := by
  unfold npUniqueSorted
  exact List.Pairwise.sublist (List.dedup_sublist _)
    (List.sorted_insertionSort (· ≤ ·) l)

/-- The sorted-unique column extraction has no duplicates. -/
theorem npUniqueSorted_nodup (l : List Int) : (npUniqueSorted l).Nodup :=
  List.nodup_dedup _

/-- The sorted-unique column extraction keeps exactly the values of the
column. -/
theorem npUniqueSorted_mem (l : List Int) (a : Int) :
    a ∈ npUniqueSorted l ↔ a ∈ l := by
  unfold npUniqueSorted
  rw [List.mem_dedup]
  exact (List.perm_insertionSort (· ≤ ·) l).mem_iff

/-- On a strictly sorted list the sorted-unique extraction is the
identity. -/
theorem npUniqueSorted_eq_self (l : List Int) (hs : l.Sorted (· < ·)) :
    npUniqueSorted l = l := by
  unfold npUniqueSorted
  rw [List.Sorted.insertionSort_eq (hs.imp (fun h => le_of_lt h))]
  exact List.dedup_eq_self.mpr (hs.imp (fun h => ne_of_lt h))

/-- The number column of the arange fallback rows is the input column. -/
theorem arangeZip_map_snd (l : List Int) (i : Nat) :
    (arangeZip i l).map Prod.snd = l := by
  induction l generalizing i with
  | nil => rfl
  | cons n rest ih => simp [arangeZip, ih]

/-- The fofid column of the arange fallback rows is the integer range
starting at the start index. -/
theorem arangeZip_map_fst (l : List Int) (i : Nat) :
    (arangeZip i l).map Prod.fst =
      (List.range l.length).map (fun k => ((i + k : Nat) : Int)) := by
  induction l generalizing i with
  | nil => rfl
  | cons n rest ih =>
    simp only [arangeZip, List.map_cons, List.length_cons,
      List.range_succ_eq_map, List.map_map]
    rw [ih (i + 1)]
    congr 1
    simp
    intro a _
    omega

/-- Inversion of a successful run of the fofid2mindex building loop: the
produced table lists the requested fofids in order, each mapped to the
nonempty list of matching row indices. -/
theorem buildFofTable_ok (fd : List (Int × Int)) (n0 : List Int)
    (ids : List Int) (out : List (Int × List Nat))
    (hout : buildFofTable fd n0 ids = Except.ok out) :
    out.map Prod.fst = ids ∧
    ∀ p ∈ out, p.2 = fofMembers fd p.1 ∧ p.2 ≠ [] := by
  induction ids generalizing out with
  | nil =>
    unfold buildFofTable at hout
    obtain rfl : ([] : List (Int × List Nat)) = out := by
      simpa [pure, Except.pure] using hout
    simp
  | cons fofid rest ih =>
    unfold buildFofTable at hout
    by_cases h1 : (fofMembers fd fofid).length = 0
    · rw [if_pos h1] at hout
      exact absurd hout (by simp [throw, throwThe, MonadExceptOf.throw])
    · rw [if_neg h1] at hout
      by_cases h2 : ¬ ((fofMembers fd fofid).map
          (fun i => (fd.getD i (0, 0)).2) =
          (fofMembers fd fofid).map (fun i => n0.getD i 0))
      · rw [if_pos h2] at hout
        exact absurd hout (by simp [throw, throwThe, MonadExceptOf.throw])
      · rw [if_neg h2] at hout
        cases hrec : buildFofTable fd n0 rest with
        | error e =>
          rw [hrec] at hout
          exact absurd hout (by simp [Bind.bind, Except.bind])
        | ok tl =>
          rw [hrec] at hout
          obtain rfl : (fofid, fofMembers fd fofid) :: tl = out := by
            simpa [Bind.bind, Except.bind, pure, Except.pure] using hout
          obtain ⟨ihm, ihp⟩ := ih tl hrec
          refine ⟨by simp [ihm], ?_⟩
          intro p hp
          rcases List.mem_cons.mp hp with rfl | hpt
          · refine ⟨rfl, ?_⟩
            intro hq
            exact h1 (by simpa using congrArg List.length hq)
          · exact ihp p hpt

/-- C4: a band catalog whose number column differs from the group table
number column position-by-position makes construction abort with the
fatal mismatch error; on success the manager produces the sorted,
duplicate-free list of exactly the distinct group ids, each mapped in
order to the nonempty list of row indices whose fofid matches; with no
group table supplied, construction succeeds whenever the bands agree
with the first band, and every row index becomes its own singleton
group. -/
theorem C4_index_lookups
    (bands : List (List Int)) (fofTable : Option (List (Int × Int)))
    (bad : List Int) (hbad : bad ∈ bands)
    (hne : bad ≠ (buildFofData fofTable (bands.headD [])).map Prod.snd)
    (bands2 : List (List Int)) (t2 : List (Int × Int))
    (fofids : List Int) (table : List (Int × List Nat))
    (hok : setAndCheckIndexLookups bands2 (some t2) =
      Except.ok (fofids, table))
    (p : Int × List Nat) (hp : p ∈ table) (a : Int)
    (bands3 : List (List Int))
    (hall : ∀ nums ∈ bands3, nums = bands3.headD []) :
    setAndCheckIndexLookups bands fofTable =
      Except.error "FoF number is not the same as MEDS number" ∧
    fofids = npUniqueSorted (t2.map Prod.fst) ∧
    fofids.Sorted (· ≤ ·) ∧
    fofids.Nodup ∧
    (a ∈ fofids ↔ a ∈ t2.map Prod.fst) ∧
    table.map Prod.fst = fofids ∧
    p.2 = fofMembers t2 p.1 ∧
    p.2 ≠ [] ∧
    setAndCheckIndexLookups bands3 none =
      Except.ok
        ((List.range (bands3.headD []).length).map
           (fun k : Nat => (k : Int)),
         (List.range (bands3.headD []).length).map
           (fun k : Nat => ((k : Int), ([k] : List Nat)))) := by
  have herr : setAndCheckIndexLookups bands fofTable =
      Except.error "FoF number is not the same as MEDS number" := by
    unfold setAndCheckIndexLookups
    rw [if_pos]
    · rfl
    · intro hall'
      exact hne (hall' bad hbad)
  have hmain : fofids = npUniqueSorted (t2.map Prod.fst) ∧
      table.map Prod.fst = npUniqueSorted (t2.map Prod.fst) ∧
      ∀ q ∈ table, q.2 = fofMembers t2 q.1 ∧ q.2 ≠ [] := by
    unfold setAndCheckIndexLookups at hok
    dsimp only [buildFofData] at hok
    by_cases hchk : ¬ (∀ nums ∈ bands2, nums = t2.map Prod.snd)
    · rw [if_pos hchk] at hok
      exact absurd hok (by simp [throw, throwThe, MonadExceptOf.throw])
    · rw [if_neg hchk] at hok
      cases hbt : buildFofTable t2 (bands2.headD [])
          (npUniqueSorted (t2.map Prod.fst)) with
      | error e =>
        rw [hbt] at hok
        exact absurd hok (by simp [Bind.bind, Except.bind])
      | ok tb =>
        rw [hbt] at hok
        obtain ⟨hf, ht⟩ : npUniqueSorted (t2.map Prod.fst) = fofids ∧
            tb = table := by
          simpa [Bind.bind, Except.bind, pure, Except.pure,
            Prod.mk.injEq] using hok
        obtain ⟨hmap, hmem⟩ :=
          buildFofTable_ok t2 (bands2.headD []) _ tb hbt
        rw [← hf, ← ht]
        exact ⟨rfl, hmap, hmem⟩
  have hnone : setAndCheckIndexLookups bands3 none =
      Except.ok
        ((List.range (bands3.headD []).length).map
           (fun k : Nat => (k : Int)),
         (List.range (bands3.headD []).length).map
           (fun k : Nat => ((k : Int), ([k] : List Nat)))) := by
    unfold setAndCheckIndexLookups
    dsimp only [buildFofData]
    rw [if_neg (not_not_intro ?hcheck)]
    case hcheck =>
      intro nums hn
      rw [arangeZip_map_snd]
      exact hall nums hn
    have hfst : (arangeZip 0 (bands3.headD [])).map Prod.fst =
        (List.range (bands3.headD []).length).map
          (fun k : Nat => (k : Int)) := by
      rw [arangeZip_map_fst]
      apply List.map_congr_left
      intro k _
      simp
    have hsorted : ((List.range (bands3.headD []).length).map
        (fun k : Nat => (k : Int))).Sorted (· < ·) := by
      refine List.Pairwise.map _ ?_ (List.pairwise_lt_range _)
      intro x y hxy
      exact_mod_cast hxy
    rw [hfst, npUniqueSorted_eq_self _ hsorted]
    rw [List.map_map]
    have hsingle : ((List.range (bands3.headD []).length).map
        ((fun fofid : Int => (fofid, [fofid.toNat])) ∘
          (fun k : Nat => (k : Int)))) =
        (List.range (bands3.headD []).length).map
          (fun k : Nat => ((k : Int), ([k] : List Nat))) := by
      apply List.map_congr_left
      intro k _
      simp
    rw [hsingle]
    rfl
  refine ⟨herr, hmain.1, ?_, ?_, ?_, hmain.2.1.trans hmain.1.symm,
    (hmain.2.2 p hp).1,
    (hmain.2.2 p hp).2, hnone⟩
  · rw [hmain.1]
    exact npUniqueSorted_sorted _
  · rw [hmain.1]
    exact npUniqueSorted_nodup _
  · rw [hmain.1]
    exact npUniqueSorted_mem _ a

/-- Witness for C4 at concrete catalogs: a mismatching band with an
explicit table, a consistent one-object table run, and a two-object
no-table run. -/
theorem C4_index_lookups_witness :
    setAndCheckIndexLookups [[1]] (some [(0, 2)]) =
      Except.error "FoF number is not the same as MEDS number" ∧
    ([0] : List Int) = npUniqueSorted (([(0, 5)] :
      List (Int × Int)).map Prod.fst) ∧
    ([0] : List Int).Sorted (· ≤ ·) ∧
    ([0] : List Int).Nodup ∧
    ((0 : Int) ∈ ([0] : List Int) ↔
      (0 : Int) ∈ ([(0, 5)] : List (Int × Int)).map Prod.fst) ∧
    ([((0 : Int), [(0 : Nat)])] : List (Int × List Nat)).map Prod.fst =
      ([0] : List Int) ∧
    (((0 : Int), [(0 : Nat)]) : Int × List Nat).2 =
      fofMembers [(0, 5)] (((0 : Int), [(0 : Nat)]) : Int × List Nat).1 ∧
    (((0 : Int), [(0 : Nat)]) : Int × List Nat).2 ≠ [] ∧
    setAndCheckIndexLookups [[4, 6]] none =
      Except.ok
        ((List.range (([[4, 6]] : List (List Int)).headD []).length).map
           (fun k : Nat => (k : Int)),
         (List.range (([[4, 6]] : List (List Int)).headD []).length).map
           (fun k : Nat => ((k : Int), ([k] : List Nat)))) :=
  C4_index_lookups [[1]] (some [(0, 2)]) [1] (by decide) (by decide)
    [[5]] [(0, 5)] [0] [((0 : Int), [(0 : Nat)])] rfl
    ((0 : Int), [(0 : Nat)]) (by decide) 0 [[4, 6]] (by decide)

end Ngmixer
